import Mathlib

/-
Verification of the ewYss-builder PDF-to-slides pipeline.

This file gives a shallow embedding, in Lean 4, of the algorithmic core of the
repository: the resilient JSON extraction of the orchestrator
(src/orchestration/pdf_to_slides_orchestrator.py), the concurrent slide
pipeline built on asyncio.gather, and the chunking / classification heuristics
of the PDF extraction skill (src/skills/native_skills/pdf_extraction.py).

Python strings are modelled as lists of characters (`Str`); every Python string
operation used by the embedded code (strip, lower, count, split, find, rfind,
startswith, substring containment) is defined here with Python's semantics
(case folding is modelled for ASCII letters; Python's str.strip is modelled on
the ASCII whitespace characters).  External collaborators (LLM agents, the
LangChain text splitters, the filesystem) enter the embedding as opaque
function parameters, exactly at the call boundaries the source uses.
-/

set_option maxRecDepth 8000

/-- Python strings are modelled as lists of characters. -/
abbrev Str := List Char

/-- Coerce a Lean string literal into the `Str` model. -/
def str (s : String) : Str := s.data

/-- The character `\x7b` (opening curly brace). -/
def lbrace : Char := Char.ofNat 123

/-- The character `\x7d` (closing curly brace). -/
def rbrace : Char := Char.ofNat 125

/-- ASCII whitespace, as stripped by Python's `str.strip()` (model restricted
to the ASCII range). -/
def pyIsSpace (c : Char) : Bool :=
  c = ' ' || c = '\t' || c = '\n' || c = '\r' || c = '\x0b' || c = '\x0c'

/-- Python `s.strip()`: drop leading and trailing whitespace. -/
def pyStrip (l : Str) : Str :=
  ((l.dropWhile pyIsSpace).reverse.dropWhile pyIsSpace).reverse

/-- Python `s.lower()` (ASCII model: only A-Z are folded). -/
def pyLower (l : Str) : Str := l.map Char.toLower

/-- Python `sub in s`: substring containment. -/
def containsSub (pat : Str) : Str → Bool
  | [] => pat.isEmpty
  | c :: rest => pat.isPrefixOf (c :: rest) || containsSub pat rest

/-- Python `s.isupper()` (ASCII model of cased characters): at least one
letter, and no lowercase letter. -/
def pyIsUpper (l : Str) : Bool :=
  l.any (fun c => c.isAlpha) && l.all (fun c => !c.isAlpha || c.isUpper)

/-- Helper for `pyCount`: non-overlapping substring count.  The `Nat` argument
is the number of characters still to be skipped after a match. -/
def pyCountAux (pat : Str) : Str → Nat → Nat
  | [], _ => 0
  | _ :: rest, Nat.succ k => pyCountAux pat rest k
  | c :: rest, 0 =>
    if pat.isPrefixOf (c :: rest) then 1 + pyCountAux pat rest (pat.length - 1)
    else pyCountAux pat rest 0

/-- Python `s.count(pat)`: number of non-overlapping occurrences of `pat`. -/
def pyCount (pat : Str) (l : Str) : Nat := pyCountAux pat l 0

/-- Helper for `pySplitOnStr`: the `Nat` argument counts separator characters
still to be skipped, the last argument is the current piece reversed. -/
def pySplitOnAux (pat : Str) : Str → Nat → Str → List Str
  | [], _, acc => [acc.reverse]
  | _ :: rest, Nat.succ k, acc => pySplitOnAux pat rest k acc
  | c :: rest, 0, acc =>
    if pat.isPrefixOf (c :: rest) then
      acc.reverse :: pySplitOnAux pat rest (pat.length - 1) []
    else pySplitOnAux pat rest 0 (c :: acc)

/-- Python `s.split(pat)` for a non-empty separator string `pat`: splits at
every non-overlapping occurrence, keeping empty pieces. -/
def pySplitOnStr (pat : Str) (l : Str) : List Str := pySplitOnAux pat l 0 []

/-- Index of the first occurrence of `pat` as a contiguous substring. -/
def findSubIdx (pat : Str) : Str → Option Nat
  | [] => if pat.isEmpty then some 0 else none
  | c :: rest =>
    if pat.isPrefixOf (c :: rest) then some 0
    else (findSubIdx pat rest).map (· + 1)

/-- Python `s.rfind(c)` (for a single character), as an `Option`. -/
def rFindIdx (l : Str) (c : Char) : Option Nat :=
  (l.reverse.findIdx? (· = c)).map (fun i => l.length - 1 - i)

/-
## Concurrent pipeline runner
(src/orchestration/pdf_to_slides_orchestrator.py, `process_slides_in_parallel`,
lines 169-187.)

`process_single_slide` runs a fixed sequence of agent calls for one slide; any
of them may raise, so one slide's processing is modelled as a function into
`Except`.  `asyncio.gather(*tasks)` is called WITHOUT `return_exceptions=True`:
if every task succeeds it returns the task results in the order the tasks were
passed (not in completion order); if some task raises, `gather` propagates the
exception of the first task to fail in completion order and no result list is
produced.  Completion order is modelled as an explicit list of task indices.
-/

/-- Collect the results of a list of completed tasks, in task order
(the behaviour of `asyncio.gather` when no task raised). -/
def collectOks {ε β : Type} : List (Except ε β) → Except ε (List β)
  | [] => Except.ok []
  | Except.error e :: _ => Except.error e
  | Except.ok b :: rest =>
    match collectOks rest with
    | Except.ok bs => Except.ok (b :: bs)
    | Except.error e => Except.error e

/-- The exception of the first task (in completion order) that raised. -/
def firstRaised {ε β : Type} (tasks : List (Except ε β)) (order : List Nat) : Option ε :=
  order.findSome? (fun i =>
    match tasks.get? i with
    | some (Except.error e) => some e
    | _ => none)

/-- Model of `asyncio.gather(*tasks)` without `return_exceptions`:
`order` is the order in which the tasks complete. -/
def asyncGather {ε β : Type} (tasks : List (Except ε β)) (order : List Nat) :
    Except ε (List β) :=
  match firstRaised tasks order with
  | some e => Except.error e
  | none => collectOks tasks

/-- `process_slides_in_parallel`: one task per slide, joined with
`asyncio.gather`.  `process_single_slide` is the per-slide stage chain. -/
def process_slides_in_parallel {α ε β : Type}
    (process_single_slide : α → Except ε β)
    (slide_data_list : List α) (order : List Nat) : Except ε (List β) :=
  asyncGather (slide_data_list.map process_single_slide) order

/-
## `extract_and_chunk_content` entry-point prechecks
(src/skills/native_skills/pdf_extraction.py, lines 90-132.)
-/

/-- Python exceptions raised by the extraction entry point. -/
inductive PyError where
  | fileNotFoundError : Str → PyError
  | valueError : Str → PyError
  | exception : Str → PyError
deriving DecidableEq

/-- The message text of a modelled Python exception (`str(e)`). -/
def pyErrMsg : PyError → Str
  | PyError.fileNotFoundError m => m
  | PyError.valueError m => m
  | PyError.exception m => m

/-- Python truthiness of `not output_dir` for an optional string:
true for `None` and for the empty string. -/
def pyFalsyStr : Option Str → Bool
  | none => true
  | some s => s.isEmpty

/-- `extract_and_chunk_content`:  the two up-front checks (path existence, then
the `output_dir` requirement), followed by the extraction body (steps 1-5,
which load the PDF, chunk it and build presentation chunks).  The body is an
opaque parameter: it stands for everything after the checks, and the
surrounding `try`/`except` re-wraps any exception it raises into a generic
`Exception("Error processing PDF: ...")`. -/
def extract_and_chunk_content {γ : Type}
    (os_path_exists : Str → Bool) (pdf_path : Str)
    (chunking_strategy : Str) (chunk_size chunk_overlap : Nat)
    (preserve_tables : Bool) (extract_images : Bool) (output_dir : Option Str)
    (body : Except PyError γ) : Except PyError γ :=
  if os_path_exists pdf_path = false then
    Except.error (PyError.fileNotFoundError (str "PDF file not found: " ++ pdf_path))
  else if extract_images && pyFalsyStr output_dir then
    Except.error (PyError.valueError (str "output_dir is required when extract_images=True"))
  else
    match body with
    | Except.ok r => Except.ok r
    | Except.error e => Except.error (PyError.exception (str "Error processing PDF: " ++ pyErrMsg e))

/-
## Helper lemmas for the pipeline runner
-/

lemma firstRaised_eq_none {ε β : Type} (tasks : List (Except ε β)) (order : List Nat)
    (h : ∀ t ∈ tasks, ∃ b, t = Except.ok b) : firstRaised tasks order = none := by
  induction order with
  | nil => rfl
  | cons i rest ih =>
    unfold firstRaised at *
    rw [List.findSome?]
    have hcase : (match tasks.get? i with
        | some (Except.error e) => some e
        | _ => none) = (none : Option ε) := by
      cases hg : tasks.get? i with
      | none => rfl
      | some t =>
        have ht : t ∈ tasks := List.get?_mem hg
        obtain ⟨b, hb⟩ := h t ht
        subst hb
        rfl
    rw [hcase]
    exact ih

lemma collectOks_of_all_ok {ε β : Type} (tasks : List (Except ε β))
    (h : ∀ t ∈ tasks, ∃ b, t = Except.ok b) :
    ∃ bs : List β, collectOks tasks = Except.ok bs ∧ bs.length = tasks.length ∧
      ∀ (i : Nat) (hi : i < tasks.length) (hj : i < bs.length),
        tasks.get ⟨i, hi⟩ = Except.ok (bs.get ⟨i, hj⟩) := by
  induction tasks with
  | nil => exact ⟨[], rfl, rfl, fun i hi => absurd hi (Nat.not_lt_zero i)⟩
  | cons t rest ih =>
    obtain ⟨b, hb⟩ := h t (List.mem_cons_self t rest)
    obtain ⟨bs, hbs, hlen, hidx⟩ := ih (fun t' ht' => h t' (List.mem_cons_of_mem t ht'))
    subst hb
    refine ⟨b :: bs, ?_, by simpa using hlen, ?_⟩
    · simp [collectOks, hbs]
    · intro i hi hj
      cases i with
      | zero => rfl
      | succ n =>
        exact hidx n (Nat.lt_of_succ_lt_succ hi) (Nat.lt_of_succ_lt_succ hj)

lemma firstRaised_isSome_of_mem {ε β : Type} (tasks : List (Except ε β))
    (order : List Nat) (i : Nat) (e : ε)
    (hi : i ∈ order) (he : tasks.get? i = some (Except.error e)) :
    ∃ e', firstRaised tasks order = some e' := by
  induction order with
  | nil => cases hi
  | cons j rest ih =>
    unfold firstRaised at *
    rw [List.findSome?]
    rcases List.mem_cons.mp hi with hji | hmem
    · subst hji
      rw [he]
      exact ⟨e, rfl⟩
    · cases hcase : (match tasks.get? j with
          | some (Except.error e) => some e
          | _ => none : Option ε) with
      | some e' => exact ⟨e', rfl⟩
      | none => exact ih hmem

/-
## C3 / C1: ordering and failure behaviour of the pipeline runner
-/

/-- A per-slide processing function that always succeeds (used to witness the
ordering theorem on a concrete run). -/
def demoProcess : Nat → Except Str Nat := fun n => Except.ok (n + 1)

/-- A per-slide processing function whose second slide raises (used to observe
the behaviour of the batch when one slide fails). -/
def failingSlide : Nat → Except Str Nat :=
  fun n => if n = 0 then Except.ok 7 else Except.error (str "boom")

/-- C3: when every slide's stage chain succeeds, `process_slides_in_parallel`
returns a list of the same length as the input whose i-th element is the
processed result of the i-th input slide, for EVERY completion order of the
concurrent tasks. -/
theorem process_slides_preserves_order {α ε β : Type}
    (f : α → Except ε β) (l : List α) (order : List Nat)
    (h : ∀ a ∈ l, ∃ b, f a = Except.ok b) :
    ∃ rs : List β, process_slides_in_parallel f l order = Except.ok rs ∧
      rs.length = l.length ∧
      ∀ (i : Nat) (hi : i < l.length) (hj : i < rs.length),
        f (l.get ⟨i, hi⟩) = Except.ok (rs.get ⟨i, hj⟩) := by
  have hall : ∀ t ∈ l.map f, ∃ b, t = Except.ok b := by
    intro t ht
    obtain ⟨a, ha, rfl⟩ := List.mem_map.mp ht
    exact h a ha
  obtain ⟨bs, hbs, hlen, hidx⟩ := collectOks_of_all_ok (l.map f) hall
  refine ⟨bs, ?_, by simpa using hlen, ?_⟩
  · unfold process_slides_in_parallel asyncGather
    rw [firstRaised_eq_none (l.map f) order hall]
    exact hbs
  · intro i hi hj
    have hi' : i < (l.map f).length := by simpa using hi
    have := hidx i hi' hj
    rwa [List.get_map] at this

/-- Witness for C3 at a concrete input: three slides, completion order 2,0,1. -/
theorem process_slides_preserves_order_witness :
    (∀ a ∈ [10, 20, 30], ∃ b, demoProcess a = Except.ok b) ∧
    (∃ rs : List Nat,
      process_slides_in_parallel demoProcess [10, 20, 30] [2, 0, 1] = Except.ok rs ∧
      rs.length = [10, 20, 30].length ∧
      ∀ (i : Nat) (hi : i < [10, 20, 30].length) (hj : i < rs.length),
        demoProcess ([10, 20, 30].get ⟨i, hi⟩) = Except.ok (rs.get ⟨i, hj⟩)) :=
  ⟨fun a _ => ⟨a + 1, rfl⟩,
   process_slides_preserves_order demoProcess [10, 20, 30] [2, 0, 1]
     (fun a _ => ⟨a + 1, rfl⟩)⟩

/-- C1 counterexample: with two slides of which the second raises (and
completes first), `process_slides_in_parallel` propagates the exception; no
result list containing the first slide's successful result is returned. -/
theorem process_slides_failure_counterexample :
    process_slides_in_parallel failingSlide [0, 1] [1, 0] = Except.error (str "boom") ∧
    ¬ ∃ rs : List Nat,
        process_slides_in_parallel failingSlide [0, 1] [1, 0] = Except.ok rs := by
  constructor
  · rfl
  · rintro ⟨rs, h⟩
    rw [show process_slides_in_parallel failingSlide [0, 1] [1, 0]
          = Except.error (str "boom") from rfl] at h
    cases h

/-- C1 (amended): if any slide's stage chain raises and the completion order
covers every slide, `process_slides_in_parallel` raises (returns an error) and
produces no result list at all — the whole batch fails. -/
theorem process_slides_raises_on_any_failure {α ε β : Type}
    (f : α → Except ε β) (l : List α) (order : List Nat)
    (hcov : ∀ i, i < l.length → i ∈ order)
    (hfail : ∃ a ∈ l, ∃ e, f a = Except.error e) :
    ∃ e, process_slides_in_parallel f l order = Except.error e := by
  obtain ⟨a, ha, e, he⟩ := hfail
  obtain ⟨i, hget⟩ := List.mem_iff_get.mp ha
  have hfi : f (l.get i) = Except.error e := by rw [hget]; exact he
  have hget? : (l.map f).get? i.val = some (Except.error e) := by
    rw [List.get?_map, List.get?_eq_get i.isLt, Option.map_some']
    exact congrArg some hfi
  obtain ⟨e', he'⟩ :=
    firstRaised_isSome_of_mem (l.map f) order i.val e (hcov i.val i.isLt) hget?
  refine ⟨e', ?_⟩
  unfold process_slides_in_parallel asyncGather
  rw [he']

/-- Witness for the amended C1 at a concrete input. -/
theorem process_slides_raises_on_any_failure_witness :
    ∃ e, process_slides_in_parallel failingSlide [0, 1] [1, 0] = Except.error e :=
  process_slides_raises_on_any_failure failingSlide [0, 1] [1, 0]
    (by decide)
    ⟨1, by decide, str "boom", rfl⟩

/-
## C10: prechecks of `extract_and_chunk_content`
-/

/-- C10 (amended): for every EXISTING pdf_path, requesting image extraction
without an output directory raises `ValueError` before any document is opened
or any chunking work is performed — the result does not depend on the
extraction body. -/
theorem extract_requires_output_dir {γ : Type}
    (os_path_exists : Str → Bool) (pdf_path chunking_strategy : Str)
    (chunk_size chunk_overlap : Nat) (preserve_tables : Bool)
    (body : Except PyError γ)
    (h : os_path_exists pdf_path = true) :
    extract_and_chunk_content os_path_exists pdf_path chunking_strategy
        chunk_size chunk_overlap preserve_tables true none body
      = Except.error (PyError.valueError
          (str "output_dir is required when extract_images=True")) := by
  unfold extract_and_chunk_content
  rw [h]
  rfl

/-- Witness for the amended C10 at a concrete input. -/
theorem extract_requires_output_dir_witness :
    extract_and_chunk_content (fun _ => true) (str "doc.pdf") (str "recursive")
        1000 200 true true none (Except.ok 0)
      = Except.error (PyError.valueError
          (str "output_dir is required when extract_images=True")) :=
  extract_requires_output_dir (fun _ => true) (str "doc.pdf") (str "recursive")
    1000 200 true (Except.ok 0) rfl

/-- C10 counterexample: for a pdf_path that does not exist the call raises
`FileNotFoundError`, not `ValueError` — the existence check runs first. -/
theorem extract_requires_output_dir_counterexample :
    extract_and_chunk_content (fun _ => false) (str "doc.pdf") (str "recursive")
        1000 200 true true none (Except.ok 0)
      = Except.error (PyError.fileNotFoundError (str "PDF file not found: doc.pdf")) ∧
    ¬ ∃ m, extract_and_chunk_content (fun _ => false) (str "doc.pdf") (str "recursive")
        1000 200 true true none (Except.ok 0)
      = Except.error (PyError.valueError m) := by
  constructor
  · rfl
  · rintro ⟨m, h⟩
    rw [show extract_and_chunk_content (fun _ => false) (str "doc.pdf") (str "recursive")
          1000 200 true true none (Except.ok 0)
        = Except.error (PyError.fileNotFoundError (str "PDF file not found: doc.pdf"))
        from rfl] at h
    cases h

/-
## Chunk classifier: key points and content type
(src/skills/native_skills/pdf_extraction.py, `_extract_key_points` lines
491-511, `_analyze_content_type` lines 476-489.)
-/

/-- The importance cue words of `_extract_key_points`. -/
def importance_words : List Str :=
  [str "quan trọng", str "chính", str "cần", str "phải",
   str "important", str "key", str "main", str "essential"]

/-- The ordinal transition openers of `_extract_key_points`
(`sentence.startswith((...))`). -/
def ordinalOpeners : List Str :=
  [str "Đầu tiên", str "Thứ hai", str "Cuối cùng",
   str "First", str "Second", str "Finally"]

/-- `importance_score` of a sentence: one point per cue word occurring
(as a substring) in the lower-cased sentence. -/
def importanceScore (s : Str) : Nat :=
  (importance_words.filter (fun w => containsSub w (pyLower s))).length

/-- Does the sentence open with one of the ordinal transition words? -/
def opensWithOrdinal (s : Str) : Bool :=
  ordinalOpeners.any (fun w => w.isPrefixOf s)

/-- The loop body of `_extract_key_points`: strip the sentence, keep it when
its length is strictly between 20 and 200 and it scores, appending to the
accumulated list. -/
def extractStep (key_points : List Str) (sentence : Str) : List Str :=
  let s := pyStrip sentence
  if 20 < s.length ∧ s.length < 200 then
    if 0 < importanceScore s ∨ opensWithOrdinal s = true then key_points ++ [s]
    else key_points
  else key_points

/-- The boolean filter equivalent to the loop body's tests. -/
def keepSentence (s : Str) : Bool :=
  decide (20 < s.length) && decide (s.length < 200) &&
    (decide (0 < importanceScore s) || opensWithOrdinal s)

/-- `_extract_key_points`: replace newlines by spaces, split on '.', keep
scoring sentences of moderate length, and return at most the first five. -/
def _extract_key_points (content : Str) : List Str :=
  let sentences := (content.map (fun c => if c = '\n' then ' ' else c)).splitOn '.'
  (sentences.foldl extractStep []).take 5

/-- The figure/chart vocabulary of `_analyze_content_type`. -/
def figureWords : List Str :=
  [str "hình", str "biểu đồ", str "figure", str "chart"]

/-- `_analyze_content_type`: first-match-wins chain over pipe count,
newline+bullet count, figure vocabulary, and line count. -/
def _analyze_content_type (content : Str) : Str :=
  if ('|' ∈ content) ∧ 5 < pyCount (str "|") content then str "table"
  else if 2 < pyCount (str "\n-") content ∨ 2 < pyCount (str "\n•") content then
    str "list"
  else if figureWords.any (fun w => containsSub w (pyLower content)) then
    str "figure_reference"
  else if 10 < (content.splitOn '\n').length then str "long_text"
  else str "paragraph"

/-- Count of bullet-prefixed lines, exactly as the claim words it
(lines of the chunk that start with "- "); the code instead counts
occurrences of the two-character substring newline+dash. -/
def claimBulletLines (content : Str) : Nat :=
  ((content.splitOn '\n').filter (fun l => (str "- ").isPrefixOf l)).length

/-
### C5 theorems
-/

lemma extractStep_eq (acc : List Str) (sentence : Str) :
    extractStep acc sentence =
      if keepSentence (pyStrip sentence) then acc ++ [pyStrip sentence] else acc := by
  unfold extractStep keepSentence
  by_cases h1 : 20 < (pyStrip sentence).length <;>
    by_cases h2 : (pyStrip sentence).length < 200 <;>
      by_cases h3 : 0 < importanceScore (pyStrip sentence) <;>
        by_cases h4 : opensWithOrdinal (pyStrip sentence) = true <;>
          simp [h1, h2, h3, h4]

lemma foldl_extractStep (l : List Str) (acc : List Str) :
    l.foldl extractStep acc = acc ++ ((l.map pyStrip).filter keepSentence) := by
  induction l generalizing acc with
  | nil => simp
  | cons x xs ih =>
    rw [List.foldl_cons, ih, extractStep_eq]
    by_cases h : keepSentence (pyStrip x) <;>
      simp [h, List.filter_cons, List.append_assoc]

/-- C5 (amended): `_extract_key_points` keeps exactly those (stripped)
sentences whose length is STRICTLY greater than 20 and less than 200 and that
contain a cue word or open with an ordinal transition word; it returns at most
the first five of them, in their original order (the result is a sublist of
the stripped sentence sequence). -/
theorem extract_key_points_spec (content : Str) :
    _extract_key_points content =
      ((((content.map (fun c => if c = '\n' then ' ' else c)).splitOn '.').map
          pyStrip).filter keepSentence).take 5 ∧
    (_extract_key_points content).length ≤ 5 ∧
    (_extract_key_points content).Sublist
      (((content.map (fun c => if c = '\n' then ' ' else c)).splitOn '.').map pyStrip) ∧
    ∀ s ∈ _extract_key_points content,
      20 < s.length ∧ s.length < 200 ∧
        (0 < importanceScore s ∨ opensWithOrdinal s = true) := by
  have hmain : _extract_key_points content =
      ((((content.map (fun c => if c = '\n' then ' ' else c)).splitOn '.').map
          pyStrip).filter keepSentence).take 5 := by
    unfold _extract_key_points
    simp only [foldl_extractStep, List.nil_append]
  refine ⟨hmain, ?_, ?_, ?_⟩
  · rw [hmain]
    exact List.length_take_le 5 _
  · rw [hmain]
    exact (List.take_sublist _ _).trans (List.filter_sublist _)
  · intro s hs
    rw [hmain] at hs
    have hs' := (List.take_sublist 5 _).mem hs
    have hkeep : keepSentence s = true := List.of_mem_filter hs'
    unfold keepSentence at hkeep
    simp only [Bool.and_eq_true, Bool.or_eq_true, decide_eq_true_eq] at hkeep
    exact ⟨hkeep.1.1, hkeep.1.2, hkeep.2⟩

/-- Witness for C5 (amended) at a concrete input. -/
theorem extract_key_points_spec_witness :
    str "This is the main point" ∈
      _extract_key_points (str "This is the main point. Short filler here.") ∧
    (20 < (str "This is the main point").length ∧
     (str "This is the main point").length < 200 ∧
     (0 < importanceScore (str "This is the main point") ∨
      opensWithOrdinal (str "This is the main point") = true)) :=
  ⟨by decide,
   (extract_key_points_spec (str "This is the main point. Short filler here.")).2.2.2
     (str "This is the main point") (by decide)⟩

/-- C5 counterexample: a sentence of length exactly 20 containing the cue word
"key" is NOT kept (the code requires length strictly greater than 20, the
claim's interval [20,200) would keep it). -/
theorem extract_key_points_counterexample :
    (pyStrip (str "key points here yes!")).length = 20 ∧
    containsSub (str "key") (pyLower (pyStrip (str "key points here yes!"))) = true ∧
    _extract_key_points (str "key points here yes!") = [] := by decide

/-
### C6 theorems
-/

lemma nlDash_not_prefix {c : Char} (rest : Str) (hc : c ≠ '\n') :
    (str "\n-").isPrefixOf (c :: rest) = false := by
  simp only [str, List.isPrefixOf, Bool.and_eq_false_iff]
  left
  simpa using fun h => hc h.symm

lemma pyCount_nlDash_zero (l : Str) (h : '\n' ∉ l) :
    pyCountAux (str "\n-") l 0 = 0 := by
  induction l with
  | nil => rfl
  | cons c rest ih =>
    have hc : c ≠ '\n' := fun hcc => h (hcc ▸ List.mem_cons_self c rest)
    rw [pyCountAux, nlDash_not_prefix rest hc]
    simp only [Bool.false_eq_true, if_false]
    exact ih (fun hm => h (List.mem_cons_of_mem c hm))

lemma pyCount_nlDash_append (a rest : Str) (ha : '\n' ∉ a) :
    pyCountAux (str "\n-") (a ++ '\n' :: '-' :: rest) 0
      = 1 + pyCountAux (str "\n-") rest 0 := by
  induction a with
  | nil =>
    simp [pyCountAux, str, List.isPrefixOf]
  | cons c a' ih =>
    have hc : c ≠ '\n' := fun hcc => ha (hcc ▸ List.mem_cons_self c a')
    rw [List.cons_append, pyCountAux, nlDash_not_prefix _ hc]
    simp only [Bool.false_eq_true, if_false]
    exact ih (fun hm => ha (List.mem_cons_of_mem c hm))

lemma analyze_list_of_counts (content : Str) (hpipe : '|' ∉ content)
    (hcount : 2 < pyCount (str "\n-") content) :
    _analyze_content_type content = str "list" := by
  unfold _analyze_content_type
  rw [if_neg (fun h => absurd h.1 hpipe), if_pos (Or.inl hcount)]

lemma dashSpace_prefix {l : Str} (h : (str "- ").isPrefixOf l = true) :
    ∃ t, l = '-' :: ' ' :: t := by
  cases l with
  | nil => simp [str, List.isPrefixOf] at h
  | cons c l' =>
    cases l' with
    | nil => simp [str, List.isPrefixOf] at h
    | cons d t =>
      simp only [str, List.isPrefixOf, Bool.and_eq_true, beq_iff_eq] at h
      exact ⟨t, by rw [← h.1, ← h.2.1]⟩

/-- C6 (amended): the "list" rule of `_analyze_content_type` fires when the
number of newline+dash (or newline+bullet) substring occurrences exceeds 2 —
i.e. at least FOUR bullet lines when the chunk's first line is itself a bullet
— not when the count of bullet-prefixed lines exceeds 2.  In particular every
chunk made of exactly 4 newline-joined lines, each starting with "- " and none
containing a pipe or an embedded newline, classifies as "list". -/
theorem analyze_content_type_list_rule :
    (∀ content : Str, '|' ∉ content → 2 < pyCount (str "\n-") content →
      _analyze_content_type content = str "list") ∧
    (∀ l1 l2 l3 l4 : Str,
      (∀ l ∈ [l1, l2, l3, l4],
        '\n' ∉ l ∧ '|' ∉ l ∧ (str "- ").isPrefixOf l = true) →
      _analyze_content_type (l1 ++ '\n' :: (l2 ++ '\n' :: (l3 ++ '\n' :: l4)))
        = str "list") := by
  constructor
  · exact analyze_list_of_counts
  · intro l1 l2 l3 l4 h
    obtain ⟨h1nl, h1p, -⟩ := h l1 (by simp)
    obtain ⟨h2nl, h2p, h2pre⟩ := h l2 (by simp)
    obtain ⟨h3nl, h3p, h3pre⟩ := h l3 (by simp)
    obtain ⟨h4nl, h4p, h4pre⟩ := h l4 (by simp)
    obtain ⟨t2, rfl⟩ := dashSpace_prefix h2pre
    obtain ⟨t3, rfl⟩ := dashSpace_prefix h3pre
    obtain ⟨t4, rfl⟩ := dashSpace_prefix h4pre
    have e1 : l1 ++ '\n' :: (('-' :: ' ' :: t2) ++ '\n' :: (('-' :: ' ' :: t3)
          ++ '\n' :: ('-' :: ' ' :: t4)))
        = l1 ++ '\n' :: '-' :: ((' ' :: t2) ++ '\n' :: '-' :: ((' ' :: t3)
          ++ '\n' :: '-' :: (' ' :: t4))) := by
      simp [List.cons_append]
    rw [e1]
    have hnl2 : '\n' ∉ (' ' :: t2) := by
      intro hm
      rcases List.mem_cons.mp hm with hm | hm
      · cases hm
      · exact h2nl (List.mem_cons_of_mem _ (List.mem_cons_of_mem _ hm))
    have hnl3 : '\n' ∉ (' ' :: t3) := by
      intro hm
      rcases List.mem_cons.mp hm with hm | hm
      · cases hm
      · exact h3nl (List.mem_cons_of_mem _ (List.mem_cons_of_mem _ hm))
    have hnl4 : '\n' ∉ (' ' :: t4) := by
      intro hm
      rcases List.mem_cons.mp hm with hm | hm
      · cases hm
      · exact h4nl (List.mem_cons_of_mem _ (List.mem_cons_of_mem _ hm))
    have hcnt : pyCount (str "\n-")
        (l1 ++ '\n' :: '-' :: ((' ' :: t2) ++ '\n' :: '-' :: ((' ' :: t3)
          ++ '\n' :: '-' :: (' ' :: t4)))) = 3 := by
      unfold pyCount
      rw [pyCount_nlDash_append _ _ h1nl, pyCount_nlDash_append _ _ hnl2,
        pyCount_nlDash_append _ _ hnl3, pyCount_nlDash_zero _ hnl4]
    have hpipe : '|' ∉ (l1 ++ '\n' :: '-' :: ((' ' :: t2) ++ '\n' :: '-' ::
        ((' ' :: t3) ++ '\n' :: '-' :: (' ' :: t4)))) := by
      have h2p' : '|' ∉ t2 := fun hm => h2p (by simp [hm])
      have h3p' : '|' ∉ t3 := fun hm => h3p (by simp [hm])
      have h4p' : '|' ∉ t4 := fun hm => h4p (by simp [hm])
      have q1 : ('|' : Char) ≠ '\n' := by decide
      have q2 : ('|' : Char) ≠ '-' := by decide
      have q3 : ('|' : Char) ≠ ' ' := by decide
      simp [List.mem_append, List.mem_cons, h1p, h2p', h3p', h4p', q1, q2, q3]
    exact analyze_list_of_counts _ hpipe (by rw [hcnt]; exact Nat.lt_succ_self 2)

/-- Witness for the amended C6: four "- " lines classify as "list". -/
theorem analyze_content_type_list_rule_witness :
    _analyze_content_type
        (str "- a" ++ '\n' :: (str "- b" ++ '\n' :: (str "- c" ++ '\n' :: str "- d")))
      = str "list" :=
  analyze_content_type_list_rule.2 (str "- a") (str "- b") (str "- c") (str "- d")
    (by decide)

/-- C6 counterexample: a chunk of THREE bullet-prefixed lines — more than 2
bullet-prefixed lines, as the claim counts — classifies as "paragraph", not
"list", because the code counts newline+dash substrings (here only 2). -/
theorem analyze_content_type_counterexample :
    claimBulletLines (str "- a\n- b\n- c") = 3 ∧
    _analyze_content_type (str "- a\n- b\n- c") = str "paragraph" ∧
    str "paragraph" ≠ str "list" := by decide

/-
## Hybrid chunking and header heuristics
(src/skills/native_skills/pdf_extraction.py, `_apply_hybrid_chunking` lines
224-253, `_split_by_structure` lines 255-288, `_is_likely_header` lines
405-421.)
-/

/-- The section-introducer words shared by both header heuristics. -/
def sectionWords : List Str :=
  [str "chương", str "bài", str "phần", str "mục", str "chapter", str "section"]

/-- `paragraph.split('\n')[0]`: the first line of a paragraph. -/
def firstLine (p : Str) : Str := p.takeWhile (· ≠ '\n')

/-- The INLINE header test of `_split_by_structure` (its local `is_header`):
first line shorter than 100 characters AND (starts with '#', or starts with a
section-introducer word after lower-casing, or is all-uppercase).  Note this
is NOT `_is_likely_header`. -/
def hybridIsHeader (p : Str) : Bool :=
  decide ((firstLine p).length < 100) &&
    ((str "#").isPrefixOf p ||
     sectionWords.any (fun w => w.isPrefixOf (pyLower p)) ||
     pyIsUpper p)

/-- The uppercase character class of `_is_likely_header`'s numbered-heading
regular expression (A-Z plus the Vietnamese uppercase letters, copied from the
source pattern). -/
def vnUpperChars : Str :=
  str "ABCDEFGHIJKLMNOPQRSTUVWXYZÀÁẠẢÃÂẦẤẬẨẪĂẰẮẶẲẴÈÉẸẺẼÊỀẾỆỂỄÌÍỊỈĨÒÓỌỎÕÔỒỐỘỔỖƠỜỚỢỞỠÙÚỤỦŨƯỪỨỰỬỮỲÝỴỶỸĐ"

/-- The regular expression `^\d+\.?\s+[A-Z...]` used by `_is_likely_header`:
one or more digits, an optional dot, one or more whitespace characters, then
an uppercase (possibly Vietnamese) letter. -/
def numberedHeading (line : Str) : Bool :=
  let ds := line.takeWhile Char.isDigit
  let rest := line.dropWhile Char.isDigit
  if ds.isEmpty then false
  else
    let rest2 := match rest with
      | '.' :: r => r
      | _ => rest
    let rest3 := rest2.dropWhile pyIsSpace
    if (rest2.takeWhile pyIsSpace).isEmpty then false
    else
      match rest3 with
      | c :: _ => vnUpperChars.contains c
      | [] => false

/-- `_is_likely_header`: the section-inference header heuristic. -/
def _is_likely_header (line : Str) : Bool :=
  if line.isEmpty || decide (200 < line.length) then false
  else
    pyIsUpper line ||
    (str "#").isPrefixOf line ||
    sectionWords.any (fun w => w.isPrefixOf (pyLower line)) ||
    ((str ":").isSuffixOf line && decide (line.length < 100)) ||
    numberedHeading line

/-- The loop body of `_split_by_structure`: state is (finished segments,
accumulating buffer). -/
def structStep (state : List Str × Str) (paragraph : Str) : List Str × Str :=
  let p := pyStrip paragraph
  if p.isEmpty then state
  else if hybridIsHeader p && !state.2.isEmpty then
    (state.1 ++ [pyStrip state.2], p ++ str "\n\n")
  else (state.1, state.2 ++ p ++ str "\n\n")

/-- `_split_by_structure`: split on blank lines and regroup paragraphs into
structural segments, flushing the buffer whenever a header paragraph is met
while the buffer is non-empty. -/
def _split_by_structure (text : Str) : List Str :=
  let st := (pySplitOnStr (str "\n\n") text).foldl structStep ([], [])
  if (pyStrip st.2).isEmpty then st.1 else st.1 ++ [pyStrip st.2]

/-- The loop body `structStep` would have if the header test were
`_is_likely_header`, as the claim asserts (claim-side variant, for
comparison with the code's `structStep`). -/
def specStructStep (state : List Str × Str) (paragraph : Str) : List Str × Str :=
  let p := pyStrip paragraph
  if p.isEmpty then state
  else if _is_likely_header p && !state.2.isEmpty then
    (state.1 ++ [pyStrip state.2], p ++ str "\n\n")
  else (state.1, state.2 ++ p ++ str "\n\n")

/-- `_split_by_structure` as the claim describes it: identical except that the
header test is `_is_likely_header` (claim-side variant). -/
def splitByStructureSpec (text : Str) : List Str :=
  let st := (pySplitOnStr (str "\n\n") text).foldl specStructStep ([], [])
  if (pyStrip st.2).isEmpty then st.1 else st.1 ++ [pyStrip st.2]

/-- `_apply_hybrid_chunking`: structural segmentation, then re-splitting of
oversized segments through the recursive splitter (`self.recursive_splitter`,
an external LangChain object, taken as an opaque function; note the source
uses the constructor-default splitter here, not one parameterised by
`chunk_size`/`chunk_overlap`). -/
def _apply_hybrid_chunking (recursive_splitter : Str → List Str)
    (documents : List Str) (chunk_size chunk_overlap : Nat) : List Str :=
  documents.flatMap (fun doc =>
    (_split_by_structure doc).flatMap (fun chunk_text =>
      if chunk_size < chunk_text.length then recursive_splitter chunk_text
      else [chunk_text]))

/-
### C7 theorems
-/

/-- C7 (amended): in hybrid chunking a paragraph is classified as a header by
the SPLITTER'S OWN inline heuristic (`hybridIsHeader`), a header paragraph
flushes a non-empty buffer into a structural segment, every structural segment
within `chunk_size` is emitted as a single chunk, and only larger segments are
re-split through the recursive splitter. -/
theorem hybrid_chunking_structure (rsplit : Str → List Str) (docs : List Str)
    (size ov : Nat) :
    (∀ d ∈ docs, ∀ seg ∈ _split_by_structure d, seg.length ≤ size →
      seg ∈ _apply_hybrid_chunking rsplit docs size ov) ∧
    (∀ d ∈ docs, ∀ seg ∈ _split_by_structure d, size < seg.length →
      ∀ c ∈ rsplit seg, c ∈ _apply_hybrid_chunking rsplit docs size ov) ∧
    (∀ chunks cur p, pyStrip p ≠ [] → hybridIsHeader (pyStrip p) = true →
      cur ≠ [] →
      structStep (chunks, cur) p = (chunks ++ [pyStrip cur], pyStrip p ++ str "\n\n")) := by
  refine ⟨?_, ?_, ?_⟩
  · intro d hd seg hseg hle
    unfold _apply_hybrid_chunking
    rw [List.mem_flatMap]
    refine ⟨d, hd, ?_⟩
    rw [List.mem_flatMap]
    refine ⟨seg, hseg, ?_⟩
    rw [if_neg (by omega)]
    exact List.mem_singleton.mpr rfl
  · intro d hd seg hseg hlt c hc
    unfold _apply_hybrid_chunking
    rw [List.mem_flatMap]
    refine ⟨d, hd, ?_⟩
    rw [List.mem_flatMap]
    refine ⟨seg, hseg, ?_⟩
    rw [if_pos hlt]
    exact hc
  · intro chunks cur p hp hh hcur
    unfold structStep
    simp only [List.isEmpty_iff, hp, if_false, hh, Bool.true_and]
    rw [if_pos]
    simp [List.isEmpty_iff, hcur]

/-- Witness for the amended C7: a header paragraph flushes the buffer. -/
theorem hybrid_chunking_structure_witness :
    structStep ([], str "intro text") (str " HEADER ") =
      ([] ++ [pyStrip (str "intro text")], pyStrip (str " HEADER ") ++ str "\n\n") :=
  (hybrid_chunking_structure (fun s => [s]) [] 0 0).2.2 [] (str "intro text")
    (str " HEADER ") (by decide) (by decide) (by decide)

/-- C7 counterexample: the paragraph "Introduction:" is a header for
`_is_likely_header` (it ends with a colon) but NOT for the hybrid splitter's
inline test, so the code keeps one merged segment where the claimed heuristic
would flush two — the two heuristics are not the same. -/
theorem split_by_structure_counterexample :
    _split_by_structure (str "Alpha beta.\n\nIntroduction:\n\nGamma delta.")
      = [str "Alpha beta.\n\nIntroduction:\n\nGamma delta."] ∧
    splitByStructureSpec (str "Alpha beta.\n\nIntroduction:\n\nGamma delta.")
      = [str "Alpha beta.", str "Introduction:\n\nGamma delta."] ∧
    _apply_hybrid_chunking (fun s => [s])
        [str "Alpha beta.\n\nIntroduction:\n\nGamma delta."] 1000 200
      = [str "Alpha beta.\n\nIntroduction:\n\nGamma delta."] ∧
    hybridIsHeader (str "Introduction:") = false ∧
    _is_likely_header (str "Introduction:") = true := by decide

/-
## Font-profile scan
(src/skills/native_skills/pdf_extraction.py, `_analyze_document_fonts`,
lines 333-367.)

A page's `get_text("dict")["blocks"]` is modelled as a list of blocks, a block
either carries a list of lines (each a list of spans) or no "lines" key at
all; a span carries font name, size, flags and text.  Span sizes are floats in
PyMuPDF; they are modelled as naturals here (the claims under study do not
depend on fractional sizes, only on key equality).
-/

/-- A text span as reported by PyMuPDF (`span.get("font"/"size"/"flags"/"text")`). -/
structure Span where
  font : Str
  size : Nat
  flags : Nat
  text : Str
deriving DecidableEq

/-- A font profile entry (one value of the `font_info` dict). -/
structure FontInfo where
  font : Str
  size : Nat
  flags : Nat
  is_bold : Bool
  is_italic : Bool
  count : Nat
  sample_text : Str
deriving DecidableEq

/-- A line is a list of spans; a block optionally carries lines; a page is a
list of blocks. -/
abbrev PageDict := List (Option (List (List Span)))

/-- Decimal representation of a natural, for the dict key `f"{font}_{size}_{flags}"`. -/
def natStr (n : Nat) : Str := (Nat.repr n).data

/-- The dict key `f"{font}_{size}_{flags}"` of a span. -/
def mkKey (sp : Span) : Str :=
  sp.font ++ str "_" ++ natStr sp.size ++ str "_" ++ natStr sp.flags

/-- A fresh profile for a span's key, before any increment
(`count = 0`, empty sample; `is_bold` from bit 4, `is_italic` from bit 1). -/
def newFontInfo (sp : Span) : FontInfo :=
  ⟨sp.font, sp.size, sp.flags, (sp.flags &&& 16) != 0, (sp.flags &&& 2) != 0, 0, []⟩

/-- One span's contribution to its profile: increment the count, and append
the span text to the sample only while the sample is shorter than 100
characters. -/
def spanUpdate (sp : Span) (v : FontInfo) : FontInfo :=
  ⟨v.font, v.size, v.flags, v.is_bold, v.is_italic, v.count + 1,
   if v.sample_text.length < 100 then v.sample_text ++ sp.text else v.sample_text⟩

/-- Lookup of a key in the insertion-ordered association list modelling the
Python dict `font_info`. -/
def lookupKey (key : Str) : List (Str × FontInfo) → Option FontInfo
  | [] => none
  | e :: rest => if e.1 = key then some e.2 else lookupKey key rest

/-- Processing one span: create the entry if the key is new, then apply the
increment/sample update. -/
def updateFontInfo (font_info : List (Str × FontInfo)) (sp : Span) :
    List (Str × FontInfo) :=
  let key := mkKey sp
  match lookupKey key font_info with
  | some _ => font_info.map (fun e => if e.1 = key then (e.1, spanUpdate sp e.2) else e)
  | none => font_info ++ [(key, spanUpdate sp (newFontInfo sp))]

/-- The spans of one page, in block/line order (blocks without a "lines" key
contribute nothing). -/
def pageSpans (page : PageDict) : List Span :=
  page.flatMap (fun b =>
    match b with
    | none => []
    | some lines => lines.flatMap (fun line => line))

/-- `_analyze_document_fonts`: fold every span of the first
`min(5, page_count)` pages into the font-profile dict. -/
def _analyze_document_fonts (doc : List PageDict) : List (Str × FontInfo) :=
  ((doc.take 5).flatMap pageSpans).foldl updateFontInfo []

/-
### C8 helper lemmas
-/

lemma lookupKey_append_of_none (key : Str) (m l2 : List (Str × FontInfo))
    (hl : lookupKey key m = none) :
    lookupKey key (m ++ l2) = lookupKey key l2 := by
  induction m with
  | nil => rfl
  | cons e rest ih =>
    rw [lookupKey] at hl
    by_cases he : e.1 = key
    · rw [if_pos he] at hl
      cases hl
    · rw [if_neg he] at hl
      rw [List.cons_append, lookupKey, if_neg he]
      exact ih hl

lemma lookupKey_map_update_same (k0 : Str) (g : FontInfo → FontInfo)
    (m : List (Str × FontInfo)) :
    lookupKey k0 (m.map (fun e => if e.1 = k0 then (e.1, g e.2) else e))
      = (lookupKey k0 m).map g := by
  induction m with
  | nil => rfl
  | cons e rest ih =>
    by_cases he : e.1 = k0
    · simp [lookupKey, he]
    · simp [lookupKey, he, ih]

lemma lookupKey_map_update_ne (key k0 : Str) (g : FontInfo → FontInfo)
    (m : List (Str × FontInfo)) (h : key ≠ k0) :
    lookupKey key (m.map (fun e => if e.1 = k0 then (e.1, g e.2) else e))
      = lookupKey key m := by
  induction m with
  | nil => rfl
  | cons e rest ih =>
    rw [List.map_cons]
    by_cases he : e.1 = k0
    · rw [if_pos he]
      have hek : ¬ (e.1 = key) := fun hk => h (hk ▸ he)
      rw [lookupKey, lookupKey]
      dsimp only
      rw [if_neg hek, if_neg hek]
      exact ih
    · rw [if_neg he, lookupKey, lookupKey]
      by_cases hek : e.1 = key
      · rw [if_pos hek, if_pos hek]
      · rw [if_neg hek, if_neg hek]
        exact ih

lemma lookupKey_updateFontInfo_same (m : List (Str × FontInfo)) (sp : Span) :
    lookupKey (mkKey sp) (updateFontInfo m sp)
      = some (spanUpdate sp ((lookupKey (mkKey sp) m).getD (newFontInfo sp))) := by
  cases hl : lookupKey (mkKey sp) m with
  | none =>
    simp only [updateFontInfo, hl, Option.getD]
    rw [lookupKey_append_of_none _ _ _ hl]
    simp [lookupKey]
  | some v =>
    simp only [updateFontInfo, hl, Option.getD]
    rw [lookupKey_map_update_same, hl]
    rfl

lemma lookupKey_updateFontInfo_ne (m : List (Str × FontInfo)) (sp : Span)
    (key : Str) (h : key ≠ mkKey sp) :
    lookupKey key (updateFontInfo m sp) = lookupKey key m := by
  cases hl : lookupKey (mkKey sp) m with
  | none =>
    simp only [updateFontInfo, hl]
    clear hl
    have hne : ¬ (mkKey sp = key) := fun hq => h hq.symm
    induction m with
    | nil => simp [lookupKey, hne]
    | cons e rest ih =>
      by_cases hek : e.1 = key
      · simp [lookupKey, hek]
      · simp [lookupKey, hek, ih]
  | some v =>
    simp only [updateFontInfo, hl]
    exact lookupKey_map_update_ne key (mkKey sp) (spanUpdate sp) m h

/-- The count stored for a key (0 when the key is absent). -/
def countOf (m : List (Str × FontInfo)) (key : Str) : Nat :=
  match lookupKey key m with
  | some v => v.count
  | none => 0

lemma countOf_updateFontInfo (m : List (Str × FontInfo)) (sp : Span) (key : Str) :
    countOf (updateFontInfo m sp) key
      = countOf m key + (if mkKey sp = key then 1 else 0) := by
  by_cases hk : mkKey sp = key
  · subst hk
    unfold countOf
    rw [lookupKey_updateFontInfo_same]
    cases hl : lookupKey (mkKey sp) m <;> simp [spanUpdate, newFontInfo]
  · unfold countOf
    rw [lookupKey_updateFontInfo_ne m sp key (fun hq => hk hq.symm)]
    simp [hk]

lemma countOf_foldl (spans : List Span) (m : List (Str × FontInfo)) (key : Str) :
    countOf (spans.foldl updateFontInfo m) key
      = countOf m key + (spans.filter (fun sp => decide (mkKey sp = key))).length := by
  induction spans generalizing m with
  | nil => rw [List.foldl_nil, List.filter_nil]; rfl
  | cons sp rest ih =>
    rw [List.foldl_cons, ih, countOf_updateFontInfo]
    by_cases hk : mkKey sp = key <;> simp [List.filter_cons, hk] <;> omega

lemma sample_bound_foldl (spans : List Span) (m : List (Str × FontInfo)) (bound : Nat)
    (hspan : ∀ sp ∈ spans, sp.text.length ≤ bound)
    (hm : ∀ e ∈ m, e.2.sample_text.length < 100 + bound) :
    ∀ e ∈ spans.foldl updateFontInfo m, e.2.sample_text.length < 100 + bound := by
  induction spans generalizing m with
  | nil => rw [List.foldl_nil]; exact hm
  | cons sp rest ih =>
    rw [List.foldl_cons]
    apply ih
    · intro s hs
      exact hspan s (List.mem_cons_of_mem _ hs)
    · intro e he
      have hsp : sp.text.length ≤ bound := hspan sp (List.mem_cons_self sp rest)
      simp only [updateFontInfo] at he
      cases hl : lookupKey (mkKey sp) m with
      | some v =>
        simp only [hl] at he
        obtain ⟨e0, he0, hee⟩ := List.mem_map.mp he
        by_cases hk : e0.1 = mkKey sp
        · rw [if_pos hk] at hee
          subst hee
          show (spanUpdate sp e0.2).sample_text.length < 100 + bound
          unfold spanUpdate
          by_cases hlen : e0.2.sample_text.length < 100
          · simp only [hlen, if_true]
            rw [List.length_append]
            omega
          · simp only [hlen, if_false]
            exact hm e0 he0
        · rw [if_neg hk] at hee
          subst hee
          exact hm e0 he0
      | none =>
        simp only [hl] at he
        rcases List.mem_append.mp he with he | he
        · exact hm e he
        · rw [List.mem_singleton] at he
          subst he
          show (spanUpdate sp (newFontInfo sp)).sample_text.length < 100 + bound
          unfold spanUpdate newFontInfo
          simp only
          rw [if_pos (by simp)]
          simpa using Nat.lt_of_le_of_lt hsp (by omega)

lemma lookupKey_mem {key : Str} {v : FontInfo} {m : List (Str × FontInfo)}
    (h : lookupKey key m = some v) : (key, v) ∈ m := by
  induction m with
  | nil => cases h
  | cons e rest ih =>
    rw [lookupKey] at h
    by_cases he : e.1 = key
    · rw [if_pos he] at h
      obtain rfl := Option.some.inj h
      cases e with
      | mk k w =>
        simp only at he
        subst he
        exact List.mem_cons_self _ _
    · rw [if_neg he] at h
      exact List.mem_cons_of_mem _ (ih h)

/-- C8 (amended): the font scan visits at most the first 5 pages; for every
profile key the stored count equals the number of spans seen with that key in
the sampled pages; and the sample text, appended to only while shorter than
100 characters, stays strictly below 100 plus the longest span text — it CAN
exceed 100 characters when a long span arrives near the boundary. -/
theorem analyze_document_fonts_spec :
    (∀ doc : List PageDict,
      _analyze_document_fonts doc = _analyze_document_fonts (doc.take 5)) ∧
    (∀ (doc : List PageDict) (key : Str) (v : FontInfo),
      lookupKey key (_analyze_document_fonts doc) = some v →
      v.count = (((doc.take 5).flatMap pageSpans).filter
        (fun sp => decide (mkKey sp = key))).length) ∧
    (∀ (doc : List PageDict) (bound : Nat),
      (∀ sp ∈ (doc.take 5).flatMap pageSpans, sp.text.length ≤ bound) →
      ∀ (key : Str) (v : FontInfo),
        lookupKey key (_analyze_document_fonts doc) = some v →
        v.sample_text.length < 100 + bound) := by
  refine ⟨?_, ?_, ?_⟩
  · intro doc
    unfold _analyze_document_fonts
    simp [List.take_take]
  · intro doc key v hv
    have h := countOf_foldl ((doc.take 5).flatMap pageSpans) [] key
    unfold _analyze_document_fonts at hv
    unfold countOf at h
    rw [hv] at h
    simpa [lookupKey] using h
  · intro doc bound hspan key v hv
    have hmem : (key, v) ∈ _analyze_document_fonts doc := lookupKey_mem hv
    unfold _analyze_document_fonts at hmem
    exact sample_bound_foldl _ [] bound hspan (by simp) (key, v) hmem

/-- A bold span (flags bit 4 set) whose text is 150 characters long. -/
def ceSpan : Span := ⟨str "F", 12, 16, List.replicate 150 'a'⟩

/-- The profile produced for `ceSpan` after one occurrence. -/
def ceInfo : FontInfo := ⟨str "F", 12, 16, true, false, 1, List.replicate 150 'a'⟩

/-- A small bold span used for the 200-occurrence scenario. -/
def boldSpan : Span := ⟨str "Bold", 14, 16, str "B"⟩

/-- C8 counterexample: a single span whose text is 150 characters long yields
a profile whose sample_text has length 150 — the accumulated sample CAN exceed
100 characters (the code only checks the bound before appending). -/
theorem analyze_document_fonts_counterexample :
    lookupKey (mkKey ceSpan) (_analyze_document_fonts [[some [[ceSpan]]]])
      = some ceInfo ∧
    ceInfo.sample_text.length = 150 ∧ ¬ (150 ≤ 100) := by
  refine ⟨by decide, by decide, by decide⟩

/-- Witness for the amended C8: the sample bound instantiated on the 150-char
span document, plus the 200-occurrence bold-span scenario (count == 200 and
is_bold) evaluated on a concrete document. -/
theorem analyze_document_fonts_spec_witness :
    (∀ sp ∈ ([[some [[ceSpan]]]].take 5 : List PageDict).flatMap pageSpans,
        sp.text.length ≤ 150) ∧
    ceInfo.sample_text.length < 100 + 150 ∧
    (lookupKey (mkKey boldSpan)
        (_analyze_document_fonts [[some [List.replicate 200 boldSpan]]])).map
          (fun v => (v.count, v.is_bold)) = some (200, true) :=
  ⟨by decide,
   analyze_document_fonts_spec.2.2 [[some [[ceSpan]]]] 150 (by decide)
     (mkKey ceSpan) ceInfo (by decide),
   by decide⟩

/-
## Resilient JSON extraction
(src/orchestration/pdf_to_slides_orchestrator.py, `_extract_json_from_response`,
lines 291-336.)

`json.loads` succeeds exactly on well-formed JSON text, so its success is
modelled by a recursive-descent well-formedness checker (`jsonValid`) over the
JSON grammar Python accepts by default: objects, arrays, strings with the
standard escapes, numbers, true/false/null and the NaN/Infinity constants;
strict mode rejects raw control characters inside strings; surrounding
whitespace is the JSON whitespace set space/tab/newline/carriage-return.

The regular expression search re.search(r'```json\s*([\s\S]*?)\s*```', text)
is modelled by `fencedSearch`: the leftmost occurrence of "```json" that is
followed (at distance at least 7) by a closing "```" matches, the lazy group
capturing the text between them up to the FIRST closing fence, with the
surrounding whitespace absorbed by the greedy \s* on both sides (so the group
is the stripped interior).  If the first occurrence of "```json" has no later
"```" then no later occurrence can have one either, and the search fails.
-/

/-- JSON whitespace (the characters `json.loads` skips between tokens). -/
def jsonWs (c : Char) : Bool := c = ' ' || c = '\t' || c = '\n' || c = '\r'

/-- Skip JSON whitespace. -/
def skipJsonWs (l : Str) : Str := l.dropWhile jsonWs

/-- Is `c` a hexadecimal digit (for `\uXXXX` escapes)? -/
def isHexDigit (c : Char) : Bool :=
  c.isDigit || ('a' ≤ c && c ≤ 'f') || ('A' ≤ c && c ≤ 'F')

/-- Parse the body of a JSON string, the opening quote already consumed;
returns the remaining input after the closing quote. -/
def parseJsonString : Str → Option Str
  | [] => none
  | c :: rest =>
    if c = '"' then some rest
    else if c = '\\' then
      match rest with
      | [] => none
      | e :: rest2 =>
        if e = '"' || e = '\\' || e = '/' || e = 'b' || e = 'f' ||
            e = 'n' || e = 'r' || e = 't' then parseJsonString rest2
        else if e = 'u' then
          match rest2 with
          | h1 :: h2 :: h3 :: h4 :: rest3 =>
            if isHexDigit h1 && isHexDigit h2 && isHexDigit h3 && isHexDigit h4 then
              parseJsonString rest3
            else none
          | _ => none
        else none
    else if c.toNat < 32 then none
    else parseJsonString rest

/-- Parse a JSON number (`-? (0 | [1-9][0-9]*) (. [0-9]+)? ([eE][+-]?[0-9]+)?`);
returns the remaining input. -/
def parseJsonNumber (l : Str) : Option Str :=
  let l1 := match l with
    | '-' :: r => r
    | _ => l
  match l1 with
  | [] => none
  | c :: r =>
    if ¬ c.isDigit then none
    else
      let rInt := if c = '0' then r else r.dropWhile Char.isDigit
      let rFrac : Option Str := match rInt with
        | '.' :: d :: r2 => if d.isDigit then some (r2.dropWhile Char.isDigit) else none
        | '.' :: [] => none
        | _ => some rInt
      match rFrac with
      | none => none
      | some r3 =>
        match r3 with
        | e :: r4 =>
          if e = 'e' || e = 'E' then
            let r5 := match r4 with
              | s :: r6 => if s = '+' || s = '-' then r6 else r4
              | [] => r4
            match r5 with
            | d :: r7 => if d.isDigit then some (r7.dropWhile Char.isDigit) else none
            | [] => none
          else some r3
        | [] => some r3

/-- Parsing mode: a single value, the members of an object (after `\x7b`), or
the elements of an array (after `[`). -/
inductive JMode where
  | value : JMode
  | members : JMode
  | elements : JMode

/-- Fuel-indexed recursive-descent consumer for JSON; returns the input
remaining after the parsed fragment. -/
def jsonRun : Nat → JMode → Str → Option Str
  | 0, _, _ => none
  | Nat.succ fuel, JMode.value, l =>
    let l1 := skipJsonWs l
    match l1 with
    | [] => none
    | c :: rest =>
      if c = '"' then parseJsonString rest
      else if c = lbrace then
        let r := skipJsonWs rest
        match r with
        | [] => none
        | d :: r2 => if d = rbrace then some r2 else jsonRun fuel JMode.members r
      else if c = '[' then
        let r := skipJsonWs rest
        match r with
        | [] => none
        | d :: r2 => if d = ']' then some r2 else jsonRun fuel JMode.elements r
      else if (str "true").isPrefixOf l1 then some (l1.drop 4)
      else if (str "false").isPrefixOf l1 then some (l1.drop 5)
      else if (str "null").isPrefixOf l1 then some (l1.drop 4)
      else if (str "NaN").isPrefixOf l1 then some (l1.drop 3)
      else if (str "Infinity").isPrefixOf l1 then some (l1.drop 8)
      else if (str "-Infinity").isPrefixOf l1 then some (l1.drop 9)
      else parseJsonNumber l1
  | Nat.succ fuel, JMode.members, l =>
    let l1 := skipJsonWs l
    match l1 with
    | [] => none
    | c :: rest =>
      if c = '"' then
        match parseJsonString rest with
        | none => none
        | some r1 =>
          match skipJsonWs r1 with
          | ':' :: r3 =>
            match jsonRun fuel JMode.value r3 with
            | none => none
            | some r4 =>
              match skipJsonWs r4 with
              | ',' :: r6 => jsonRun fuel JMode.members r6
              | d :: r7 => if d = rbrace then some r7 else none
              | [] => none
          | _ => none
      else none
  | Nat.succ fuel, JMode.elements, l =>
    match jsonRun fuel JMode.value l with
    | none => none
    | some r =>
      match skipJsonWs r with
      | ',' :: r3 => jsonRun fuel JMode.elements r3
      | d :: r4 => if d = ']' then some r4 else none
      | [] => none

/-- Does `json.loads` succeed on this text?  (Well-formed JSON value with only
whitespace around it; the fuel is ample since every recursive step consumes
input.) -/
def jsonValid (s : Str) : Bool :=
  match jsonRun (2 * s.length + 4) JMode.value s with
  | some rest => (skipJsonWs rest).isEmpty
  | none => false

/-- The regex search for a ```json fenced block: the stripped interior of the
leftmost fence that has a closing "```". -/
def fencedSearch (text : Str) : Option Str :=
  match findSubIdx (str "```json") text with
  | none => none
  | some i =>
    let after := text.drop (i + 7)
    match findSubIdx (str "```") after with
    | none => none
    | some j => some (pyStrip (after.take j))

/-- The candidate string `json_str` before stripping: the fenced block's
interior when the regex matches, otherwise the whole response. -/
def fencedCandidate (text : Str) : Str :=
  match fencedSearch text with
  | some inner => inner
  | none => text

/-- `_extract_json_from_response`: take the fenced block interior if present
(else the whole text), strip it, return it if it parses as JSON; otherwise cut
from the first opening brace to the last closing brace and return that span
whether or not it parses; if no such braces exist return the stripped
candidate. -/
def _extract_json_from_response (response_text : Str) : Str :=
  let json_str := pyStrip (fencedCandidate response_text)
  if jsonValid json_str then json_str
  else
    match json_str.findIdx? (· = lbrace), rFindIdx json_str rbrace with
    | some start_idx, some end_idx =>
      (json_str.drop start_idx).take (end_idx + 1 - start_idx)
    | _, _ => json_str

/-
### C2 / C4 theorems
-/

/-- C2 (amended): the attempts of `_extract_json_from_response` run in the
order (1) extract a ```json fenced block and take its stripped interior as
the candidate — else the stripped whole text; (2) return the candidate if it
parses as JSON; (3) otherwise, if the candidate contains an opening brace and
a closing brace, return the span from the first opening brace to the last
closing brace REGARDLESS of whether that span parses; (4) else return the
candidate. -/
theorem extract_json_attempt_order (text inner : Str) (s e : Nat) :
    (fencedSearch text = some inner → jsonValid (pyStrip inner) = true →
      _extract_json_from_response text = pyStrip inner) ∧
    (fencedSearch text = none → jsonValid (pyStrip text) = true →
      _extract_json_from_response text = pyStrip text) ∧
    (fencedSearch text = none → jsonValid (pyStrip text) = false →
      (pyStrip text).findIdx? (· = lbrace) = some s →
      rFindIdx (pyStrip text) rbrace = some e →
      _extract_json_from_response text
        = ((pyStrip text).drop s).take (e + 1 - s)) ∧
    (fencedSearch text = some inner → jsonValid (pyStrip inner) = false →
      (pyStrip inner).findIdx? (· = lbrace) = none →
      _extract_json_from_response text = pyStrip inner) := by
  refine ⟨?_, ?_, ?_, ?_⟩
  · intro hf hv
    unfold _extract_json_from_response fencedCandidate
    rw [hf]
    simp only [hv, if_true]
  · intro hf hv
    unfold _extract_json_from_response fencedCandidate
    rw [hf]
    simp only [hv, if_true]
  · intro hf hv hs he
    unfold _extract_json_from_response fencedCandidate
    rw [hf]
    simp only [hv, Bool.false_eq_true, if_false, hs, he]
  · intro hf hv hs
    unfold _extract_json_from_response fencedCandidate
    rw [hf]
    simp only [hv, Bool.false_eq_true, if_false, hs]

/-- Witness for the amended C2 at a concrete input: the fenced interior is
extracted and parsed. -/
theorem extract_json_attempt_order_witness :
    fencedSearch (str "```json 1 ```") = some (str "1") ∧
    jsonValid (pyStrip (str "1")) = true ∧
    _extract_json_from_response (str "```json 1 ```") = pyStrip (str "1") :=
  ⟨by decide, by decide,
   (extract_json_attempt_order (str "```json 1 ```") (str "1") 0 0).1
     (by decide) (by decide)⟩

/-- C2 counterexample: a response that is itself valid JSON but contains a
```json fenced block.  The claimed order would return the whole text (attempt
1 succeeds); the code extracts the fenced interior FIRST and returns "1". -/
theorem extract_json_attempt_order_counterexample :
    jsonValid (str "\x7b\"k\":\"```json 1 ```\"\x7d") = true ∧
    _extract_json_from_response (str "\x7b\"k\":\"```json 1 ```\"\x7d") = str "1" ∧
    str "1" ≠ str "\x7b\"k\":\"```json 1 ```\"\x7d" ∧
    str "1" ≠ pyStrip (str "\x7b\"k\":\"```json 1 ```\"\x7d") := by
  refine ⟨by decide, by decide, by decide, by decide⟩

/-- C4 (amended): `_extract_json_from_response` is total (it never raises —
every branch returns a string), and on any text that has no ```json fenced
block, is not valid JSON once stripped, and whose stripped form contains no
opening brace, it returns the STRIPPED input text — the pass-through returns
`text.strip()`, not the input verbatim. -/
theorem extract_json_pass_through (text : Str)
    (hfence : fencedSearch text = none)
    (hbrace : (pyStrip text).findIdx? (· = lbrace) = none)
    (hvalid : jsonValid (pyStrip text) = false) :
    _extract_json_from_response text = pyStrip text := by
  unfold _extract_json_from_response fencedCandidate
  rw [hfence]
  simp only [hvalid, Bool.false_eq_true, if_false, hbrace]

/-- Witness for the amended C4 at a concrete input. -/
theorem extract_json_pass_through_witness :
    _extract_json_from_response (str "plain noise") = pyStrip (str "plain noise") :=
  extract_json_pass_through (str "plain noise") (by decide) (by decide) (by decide)

/-- C4 counterexample: on a whitespace-padded noise text (no braces, no
brackets, no fence, not valid JSON) the function returns the stripped text,
which differs from the input — the result is not the input unchanged. -/
theorem extract_json_pass_through_counterexample :
    fencedSearch (str "  hi  ") = none ∧
    lbrace ∉ str "  hi  " ∧ rbrace ∉ str "  hi  " ∧
    '[' ∉ str "  hi  " ∧ ']' ∉ str "  hi  " ∧
    jsonValid (str "  hi  ") = false ∧
    _extract_json_from_response (str "  hi  ") = str "hi" ∧
    str "hi" ≠ str "  hi  " := by
  refine ⟨by decide, by decide, by decide, by decide, by decide, by decide,
    by decide, by decide⟩

/-
## Chunking strategy selection
(src/skills/native_skills/pdf_extraction.py, `_apply_chunking_strategy`,
lines 171-222.)

The LangChain splitter objects are external to the repository; the embedding
records, for each branch, WHICH splitter class the code constructs and with
WHICH arguments (`SplitterCfg`), and takes the splitter's behaviour as an
opaque function from configuration and text to chunks.  The decisive facts are
visible in the source: the "recursive" branch passes the explicit separator
list ["\n\n", "\n", ".", "!", "?", ",", " ", ""], while the "semantic" branch
and the fallback branch construct a RecursiveCharacterTextSplitter WITHOUT a
separators argument (the library default).  Documents are modelled by their
page_content.
-/

/-- Which splitter class a branch of `_apply_chunking_strategy` constructs. -/
inductive SplitterKind where
  | rcts : SplitterKind
  | markdown : SplitterKind
  | token : SplitterKind
deriving DecidableEq

/-- The constructor arguments of the splitter a branch builds (`separators =
none` means the library default list is used). -/
structure SplitterCfg where
  kind : SplitterKind
  chunk_size : Nat
  chunk_overlap : Nat
  separators : Option (List Str)
deriving DecidableEq

/-- The explicit separator priority list the "recursive" branch passes. -/
def recursiveSeparators : List Str :=
  [str "\n\n", str "\n", str ".", str "!", str "?", str ",", str " ", []]

/-- `_apply_chunking_strategy`: select and run a splitter according to the
strategy name; "hybrid" runs the structural+recursive combination; the
"semantic" branch and the fallback branch build the same
RecursiveCharacterTextSplitter(chunk_size, chunk_overlap) with default
separators.  `split` is the opaque splitter behaviour;
`recursive_splitter` is the constructor-default splitter object used by the
hybrid path (`self.recursive_splitter`). -/
def _apply_chunking_strategy (split : SplitterCfg → Str → List Str)
    (recursive_splitter : Str → List Str) (documents : List Str)
    (strategy : Str) (chunk_size chunk_overlap : Nat) : List Str :=
  if strategy = str "recursive" then
    documents.flatMap
      (split ⟨SplitterKind.rcts, chunk_size, chunk_overlap, some recursiveSeparators⟩)
  else if strategy = str "markdown" then
    documents.flatMap (split ⟨SplitterKind.markdown, chunk_size, chunk_overlap, none⟩)
  else if strategy = str "token" then
    documents.flatMap (split ⟨SplitterKind.token, chunk_size, chunk_overlap, none⟩)
  else if strategy = str "semantic" then
    documents.flatMap (split ⟨SplitterKind.rcts, chunk_size, chunk_overlap, none⟩)
  else if strategy = str "hybrid" then
    _apply_hybrid_chunking recursive_splitter documents chunk_size chunk_overlap
  else
    documents.flatMap (split ⟨SplitterKind.rcts, chunk_size, chunk_overlap, none⟩)

/-- Modelled from the spec: the documented default separator list of
LangChain's RecursiveCharacterTextSplitter, which is not part of this
repository's sources. -/
def rctsDefaultSeparators : List Str := [str "\n\n", str "\n", str " ", []]

/-- Python `text.split(sep)` extended to the empty separator, which the
recursive priority list uses as its last resort (character-level pieces). -/
def splitBySep (sep : Str) (text : Str) : List Str :=
  if sep.isEmpty then text.map (fun c => [c]) else pySplitOnStr sep text

/-- Modelled from the spec: the recursive strategy splits "by the first
separator in a priority list that yields pieces within spec.size"
(spec section 4.3); the splitter itself (LangChain
RecursiveCharacterTextSplitter) is not under src/. -/
def recursiveSplitSpec (separators : List Str) (size : Nat) (text : Str) :
    List Str :=
  if text.length ≤ size then [text]
  else
    match separators.find?
        (fun sep => (splitBySep sep text).all (fun p => decide (p.length ≤ size))) with
    | some sep => splitBySep sep text
    | none => [text]

/-- Helper for overlap windowing: repeat the last `overlap` characters of the
previous piece at the front of each following piece. -/
def windowAux (overlap : Nat) (prev : Str) : List Str → List Str
  | [] => []
  | q :: rest =>
    let q2 := prev.drop (prev.length - overlap) ++ q
    q2 :: windowAux overlap q2 rest

/-- Modelled from the spec: "pieces are then windowed with spec.overlap
characters repeated at each boundary" (spec section 4.3). -/
def windowOverlap (overlap : Nat) : List Str → List Str
  | [] => []
  | p :: rest => p :: windowAux overlap p rest

/-- Modelled from the spec: the behaviour of the splitter object a
`SplitterCfg` describes, for the RecursiveCharacterTextSplitter
configurations exercised by the theorems below (`separators = none` resolves
to the library default list). -/
def splitterRunSpec (cfg : SplitterCfg) (text : Str) : List Str :=
  windowOverlap cfg.chunk_overlap
    (recursiveSplitSpec (cfg.separators.getD rctsDefaultSeparators)
      cfg.chunk_size text)

/-
### C9 theorems
-/

/-- C9 (amended): every unrecognized strategy name falls back, without
raising, to a RecursiveCharacterTextSplitter built with the requested
chunk_size and chunk_overlap but with the library-DEFAULT separators — the
identical configuration the "semantic" branch uses — rather than the explicit
separator list the "recursive" strategy passes; its chunk list therefore need
not equal the "recursive" strategy's. -/
theorem chunking_fallback_unrecognized (split : SplitterCfg → Str → List Str)
    (recursive_splitter : Str → List Str) (documents : List Str)
    (strategy : Str) (chunk_size chunk_overlap : Nat)
    (h1 : strategy ≠ str "recursive") (h2 : strategy ≠ str "markdown")
    (h3 : strategy ≠ str "token") (h4 : strategy ≠ str "semantic")
    (h5 : strategy ≠ str "hybrid") :
    _apply_chunking_strategy split recursive_splitter documents strategy
        chunk_size chunk_overlap
      = documents.flatMap
          (split ⟨SplitterKind.rcts, chunk_size, chunk_overlap, none⟩) ∧
    _apply_chunking_strategy split recursive_splitter documents strategy
        chunk_size chunk_overlap
      = _apply_chunking_strategy split recursive_splitter documents
          (str "semantic") chunk_size chunk_overlap := by
  have hmain : _apply_chunking_strategy split recursive_splitter documents strategy
      chunk_size chunk_overlap
    = documents.flatMap
        (split ⟨SplitterKind.rcts, chunk_size, chunk_overlap, none⟩) := by
    unfold _apply_chunking_strategy
    rw [if_neg h1, if_neg h2, if_neg h3, if_neg h4, if_neg h5]
  refine ⟨hmain, hmain.trans ?_⟩
  rfl

/-- Witness for the amended C9 at a concrete unrecognized strategy name. -/
theorem chunking_fallback_unrecognized_witness :
    _apply_chunking_strategy splitterRunSpec (fun s => [s]) [str "ab.cd"]
        (str "custom") 4 0
      = [str "ab.cd"].flatMap (splitterRunSpec ⟨SplitterKind.rcts, 4, 0, none⟩) ∧
    _apply_chunking_strategy splitterRunSpec (fun s => [s]) [str "ab.cd"]
        (str "custom") 4 0
      = _apply_chunking_strategy splitterRunSpec (fun s => [s]) [str "ab.cd"]
          (str "semantic") 4 0 :=
  chunking_fallback_unrecognized splitterRunSpec (fun s => [s]) [str "ab.cd"]
    (str "custom") 4 0 (by decide) (by decide) (by decide) (by decide) (by decide)

/-- C9 counterexample: with the splitter behaviour modelled from the spec,
the unrecognized strategy "custom" (default separators: no sentence
punctuation) chunks "ab.cd" into single characters, while strategy
"recursive" (explicit separator list including '.') splits it at the dot —
the fallback does NOT produce the same chunk list as "recursive". -/
theorem chunking_fallback_counterexample :
    _apply_chunking_strategy splitterRunSpec (fun s => [s]) [str "ab.cd"]
        (str "custom") 4 0
      = [str "a", str "b", str ".", str "c", str "d"] ∧
    _apply_chunking_strategy splitterRunSpec (fun s => [s]) [str "ab.cd"]
        (str "recursive") 4 0
      = [str "ab", str "cd"] ∧
    _apply_chunking_strategy splitterRunSpec (fun s => [s]) [str "ab.cd"]
        (str "custom") 4 0
      ≠ _apply_chunking_strategy splitterRunSpec (fun s => [s]) [str "ab.cd"]
        (str "recursive") 4 0 := by
  refine ⟨by decide, by decide, by decide⟩
